import Mathlib

/-!
Verification of the eWorkbench conversation-sync engine.

The definitions below are a shallow embedding of the TypeScript source:
* `src/server/sync/syncRepo.ts` — revision store (`tryUpsertConversation`,
  `tryTombstoneConversation`, `getConversation`);
* `app/api/sync/conversations/[conversationId]/route.ts` — the HTTP routes
  (`parseBaseRevision`, PUT / DELETE / GET handlers);
* `src/common/sync/chatSyncUploader.ts` — client uploader (`tryFlush`);
* `src/common/sync/chatSyncConflictResolver.ts` — conflict resolver;
* `src/common/sync/chatSyncWatcher.ts` — change watcher;
* `src/common/sync/chatSyncAgent.ts` — agent (initial pull, realtime handler);
* `src/common/sync/chatSyncCodec.ts` — eligibility codec;
* `src/common/sync/store-chat-sync.ts` — client sync state.

JavaScript runtime values are modelled by `JsValue` (JSON values plus
`undefined`), with numbers as rationals tagged by the non-finite IEEE cases
that the validators test for (`NaN`, `Infinity`).
-/

namespace Sync

/-- IEEE-number shape as far as the validators inspect it:
`Number.isFinite` distinguishes finite values from `NaN` and infinities. -/
inductive JsNumber where
  | nan
  | posInf
  | negInf
  | finite (q : ℚ)
deriving DecidableEq, Repr

/-- JavaScript values reachable in the sync code paths: JSON values plus
`undefined` (absent properties). -/
inductive JsValue where
  | undefined
  | nullv
  | bool (b : Bool)
  | num (n : JsNumber)
  | str (s : String)
  | arr (elems : List JsValue)
  | obj (fields : List (String × JsValue))
deriving Repr

/-- First-match field lookup in an object literal (JSON-parsed objects have
unique keys). -/
def lookupField : List (String × JsValue) → String → JsValue
  | [], _ => .undefined
  | (k, v) :: rest, key => if k = key then v else lookupField rest key

/-- Property access `v.key` / `v?.key` as used by the routes: objects yield the
field (or `undefined`); every other value yields `undefined`. -/
def getField : JsValue → String → JsValue
  | .obj fields, key => lookupField fields key
  | _, _ => .undefined

/-- JavaScript truthiness of a `JsValue`. -/
def jsTruthy : JsValue → Bool
  | .undefined => false
  | .nullv => false
  | .bool b => b
  | .num .nan => false
  | .num .posInf => true
  | .num .negInf => true
  | .num (.finite q) => decide (q ≠ 0)
  | .str s => decide (s ≠ "")
  | .arr _ => true
  | .obj _ => true

/-- `typeof v === 'object'`: true for objects, arrays and `null`. -/
def jsTypeofObject : JsValue → Bool
  | .nullv => true
  | .arr _ => true
  | .obj _ => true
  | _ => false

/-- `Array.isArray(v)`. -/
def jsIsArray : JsValue → Bool
  | .arr _ => true
  | _ => false

/-- Strict equality `v === s` against a string: true only for the same
string. -/
def jsStrictEqStr (v : JsValue) (s : String) : Bool :=
  match v with
  | .str t => decide (t = s)
  | _ => false

/-- `v === undefined`. -/
def jsIsUndefined : JsValue → Bool
  | .undefined => true
  | _ => false

/-! ## Server revision store (`syncRepo.ts`) -/

/-- One row of the `sync_conversations` table for a fixed
`(user_id, conversation_id)` key. `data` is the `jsonb` column
(`none` = SQL NULL, as written by a tombstone). -/
structure SyncRow where
  revision : Nat
  deleted : Bool
  data : Option JsValue
deriving Repr

/-- Result of a store write (`SyncWriteResult` in `syncRepo.ts`). -/
inductive SyncWriteResult where
  | ok (revision : Nat)
  | conflict (currentRevision : Nat) (deleted : Bool)
  | notfound
deriving Repr

/-- `tryUpsertConversation` of `syncRepo.ts`, restricted to one key: takes the
current row (if any) and the parsed `baseRevision` (`none` = null) and returns
the write result together with the post-state of the row. `baseRevision` is a
rational because the route accepts any finite non-negative number; the SQL
`WHERE revision = $3` comparison is equality between the bigint revision and
that number. -/
def tryUpsertConversation (row : Option SyncRow) (baseRevision : Option ℚ)
    (data : JsValue) : SyncWriteResult × Option SyncRow :=
  match baseRevision with
  | none =>
    -- create-only: INSERT ... ON CONFLICT DO NOTHING
    match row with
    | none => (.ok 1, some ⟨1, false, some data⟩)
    | some r => (.conflict r.revision r.deleted, some r)
  | some b =>
    -- update-only: UPDATE ... WHERE revision = baseRevision
    match row with
    | some r =>
      if ((r.revision : ℚ) = b) then
        (.ok (r.revision + 1), some ⟨r.revision + 1, false, some data⟩)
      else
        (.conflict r.revision r.deleted, some r)
    | none => (.notfound, none)

/-- `tryTombstoneConversation` of `syncRepo.ts`, restricted to one key. -/
def tryTombstoneConversation (row : Option SyncRow) (baseRevision : Option ℚ) :
    SyncWriteResult × Option SyncRow :=
  match baseRevision with
  | none =>
    match row with
    | none => (.ok 1, some ⟨1, true, none⟩)
    | some r => (.conflict r.revision r.deleted, some r)
  | some b =>
    match row with
    | some r =>
      if ((r.revision : ℚ) = b) then
        (.ok (r.revision + 1), some ⟨r.revision + 1, true, none⟩)
      else
        (.conflict r.revision r.deleted, some r)
    | none => (.notfound, none)

/-! ## HTTP routes (`app/api/sync/conversations/[conversationId]/route.ts`) -/

/-- Result of `parseBaseRevision`: `undefined` input, `null` input, an accepted
finite non-negative number, or the `NaN` marker the route tests with
`Number.isNaN`. -/
inductive BaseRevisionParse where
  | missing
  | null
  | value (q : ℚ)
  | invalid
deriving DecidableEq, Repr

/-- `parseBaseRevision` of the route file:
`typeof value === 'number' && Number.isFinite(value) && value >= 0`. -/
def parseBaseRevision (v : JsValue) : BaseRevisionParse :=
  match v with
  | .undefined => .missing
  | .nullv => .null
  | .num (.finite q) => if 0 ≤ q then .value q else .invalid
  | _ => .invalid

/-- Route responses relevant to the sync claims. `ok` carries the 200 body of a
PUT/DELETE, `getOk` the 200 body of a GET (`data = none` encodes JSON null),
`conflictR` the stable 409 body. -/
inductive SyncApiResponse where
  | ok (conversationId : String) (revision : Nat)
  | getOk (conversationId : String) (revision : Nat) (deleted : Bool)
      (data : Option JsValue)
  | badRequest (code : String)
  | notFound
  | conflictR (conversationId : String) (revision : Nat) (deleted : Bool)
deriving Repr

/-- GET handler of the route file: 404 when absent, else the row with
`data: row.deleted ? null : row.data`. -/
def getConversationRoute (conversationId : String) (row : Option SyncRow) :
    SyncApiResponse :=
  match row with
  | none => .notFound
  | some r => .getOk conversationId r.revision r.deleted
      (if r.deleted then none else r.data)

/-- Maps the `BaseRevisionParse` to the `baseRevision` forwarded to the store:
`missing` is treated as `null` by the route. Only called off the `invalid`
branch. -/
def effectiveBaseRevision : BaseRevisionParse → Option ℚ
  | .missing => none
  | .null => none
  | .value q => some q
  | .invalid => none

/-- Shared tail of the PUT/DELETE handlers: map the store's `SyncWriteResult`
to the HTTP response (`ok` → 200, `conflict` → 409 body, `notfound` → 404). -/
def writeResultToResponse (conversationId : String)
    (t : SyncWriteResult × Option SyncRow) : SyncApiResponse × Option SyncRow :=
  match t with
  | (.ok rev, row') => (.ok conversationId rev, row')
  | (.conflict cur del, row') => (.conflictR conversationId cur del, row')
  | (.notfound, row') => (.notFound, row')

/-- PUT handler of the route file: body-shape check on the request wrapper,
`baseRevision` parse, `data` presence, payload-id check, then
`tryUpsertConversation`. Returns the response and the post-state of the row
(unchanged on every 4xx path). -/
def putConversationRoute (conversationId : String) (body : JsValue)
    (row : Option SyncRow) : SyncApiResponse × Option SyncRow :=
  if ¬ jsTruthy body ∨ ¬ jsTypeofObject body ∨ jsIsArray body then
    (.badRequest "invalid_body", row)
  else
    match parseBaseRevision (getField body "baseRevision") with
    | .invalid => (.badRequest "invalid_base_revision", row)
    | parsed =>
      match getField body "data" with
      | .undefined => (.badRequest "missing_data", row)
      | d =>
        let payloadId := getField d "id"
        if !(jsIsUndefined payloadId) && !(jsStrictEqStr payloadId conversationId) then
          (.badRequest "payload_id_mismatch", row)
        else
          writeResultToResponse conversationId
            (tryUpsertConversation row (effectiveBaseRevision parsed) d)

/-- DELETE handler of the route file: optional body defaults to `{}`, then the
same wrapper and `baseRevision` checks, then `tryTombstoneConversation`. -/
def deleteConversationRoute (conversationId : String) (body : Option JsValue)
    (row : Option SyncRow) : SyncApiResponse × Option SyncRow :=
  let bodyJson := body.getD (.obj [])
  if ¬ jsTruthy bodyJson ∨ ¬ jsTypeofObject bodyJson ∨ jsIsArray bodyJson then
    (.badRequest "invalid_body", row)
  else
    match parseBaseRevision (getField bodyJson "baseRevision") with
    | .invalid => (.badRequest "invalid_base_revision", row)
    | parsed =>
      writeResultToResponse conversationId
        (tryTombstoneConversation row (effectiveBaseRevision parsed))

/-! ## Client data model (`chatSyncCodec.ts`, chat store) -/

/-- Truthiness of an optional string field (`!!c.userTitle`): present and
non-empty. -/
def optStrTruthy : Option String → Bool
  | some s => decide (s ≠ "")
  | none => false

/-- Wire-format conversation (`SyncConversation` in `chatSyncCodec.ts`): the
fields the sync engine inspects, with the message list kept opaque. -/
structure SyncConv where
  id : String
  userTitle : Option String
  autoTitle : Option String
  created : Nat
  updated : Nat
  messages : List String
deriving DecidableEq, Repr

/-- In-memory conversation (`DConversation`): the wire fields plus the
local-only fields the codec strips (`_isIncognito`, `tokenCount`). -/
structure DConv where
  id : String
  userTitle : Option String
  autoTitle : Option String
  created : Nat
  updated : Nat
  messages : List String
  isIncognito : Bool
  tokenCount : Nat
deriving DecidableEq, Repr

/-- `inflateConversationFromSync` of `chatSyncAgent.ts`: re-attach local
defaults (`tokenCount = 0`; `_isIncognito` is never set, hence falsy). -/
def inflateConversationFromSync (s : SyncConv) : DConv :=
  { id := s.id, userTitle := s.userTitle, autoTitle := s.autoTitle,
    created := s.created, updated := s.updated, messages := s.messages,
    isIncognito := false, tokenCount := 0 }

/-- `sanitizeConversationForSync` of `chatSyncCodec.ts`: drop the local-only
fields. -/
def sanitizeConversationForSync (c : DConv) : SyncConv :=
  { id := c.id, userTitle := c.userTitle, autoTitle := c.autoTitle,
    created := c.created, updated := c.updated, messages := c.messages }

/-- `isConversationSyncEligible` of `chatSyncCodec.ts`: never incognito, and
either at least one message or a truthy title. -/
def isConversationSyncEligible (c : DConv) : Bool :=
  if c.isIncognito then false
  else !c.messages.isEmpty || optStrTruthy c.userTitle || optStrTruthy c.autoTitle

/-- Modelled from the spec: `useChatStore.importConversation(c, false)` lives in
the conversation layer, outside this repository. Per the spec ("apply external
mutation to the local conversation store") and the agent's call-site comment,
with `preventClash=false` it overwrites the conversation with the same id when
one exists and inserts the conversation under its own id otherwise. -/
def importConversation (conversations : List DConv) (c : DConv) : List DConv :=
  if conversations.any (fun x => x.id = c.id) then
    conversations.map (fun x => if x.id = c.id then c else x)
  else
    conversations ++ [c]

/-- Modelled from the spec: `useChatStore.deleteConversations(ids)` lives in the
conversation layer, outside this repository. It removes the listed ids from the
local store (the placeholder-empty conversation it may re-create is never
sync-eligible and carries a fresh id, so it is omitted here). -/
def deleteConversations (conversations : List DConv) (ids : List String) :
    List DConv :=
  conversations.filter (fun c => ¬ ids.contains c.id)

/-! ## Client sync state (`store-chat-sync.ts`) -/

/-- Pending intent kind (`ChatSyncOpKind`). -/
inductive ChatSyncOpKind where
  | upsert
  | delete
deriving DecidableEq, Repr

/-- The persisted client sync state (`useChatSyncStore`). -/
structure ChatSyncState where
  remoteRevisionById : String → Option Nat
  dirtyOpById : String → Option ChatSyncOpKind
  lastAttemptAtById : String → Option Nat
  lastErrorById : String → Option String

/-- `markDirty` action of the sync store. -/
def markDirty (st : ChatSyncState) (id : String) (op : ChatSyncOpKind) :
    ChatSyncState :=
  { st with dirtyOpById := fun x => if x = id then some op else st.dirtyOpById x }

/-- `clearDirty` action of the sync store. -/
def clearDirty (st : ChatSyncState) (id : String) : ChatSyncState :=
  { st with dirtyOpById := fun x => if x = id then none else st.dirtyOpById x }

/-- `setRemoteRevision` action of the sync store. -/
def setRemoteRevision (st : ChatSyncState) (id : String) (rev : Nat) :
    ChatSyncState :=
  { st with remoteRevisionById :=
      fun x => if x = id then some rev else st.remoteRevisionById x }

/-- `setAttempt` action of the sync store. -/
def setAttempt (st : ChatSyncState) (id : String) (attemptAt : Nat) :
    ChatSyncState :=
  { st with lastAttemptAtById :=
      fun x => if x = id then some attemptAt else st.lastAttemptAtById x }

/-- `setError` action of the sync store (`none` clears the error). -/
def setError (st : ChatSyncState) (id : String) (error : Option String) :
    ChatSyncState :=
  { st with lastErrorById :=
      fun x => if x = id then error else st.lastErrorById x }

/-! ## Conflict resolver (`chatSyncConflictResolver.ts`) -/

/-- The server record seen through `transport.getConversation` (the GET body):
revision, deleted flag, and the blob (`none` = JSON null). -/
structure RemoteConvRecord where
  revision : Nat
  deleted : Bool
  data : Option SyncConv
deriving DecidableEq, Repr

/-- `makeConflictCopyPayload`: re-id and re-timestamp the attempted payload and
suffix the title (userTitle first, then autoTitle, else a default title). -/
def makeConflictCopyPayload (localConv : SyncConv) (newId : String) (now : Nat) :
    SyncConv :=
  let next : SyncConv :=
    { localConv with id := newId, created := now, updated := now }
  if optStrTruthy next.userTitle then
    { next with userTitle := some (next.userTitle.getD "" ++ " (conflict copy)") }
  else if optStrTruthy next.autoTitle then
    { next with autoTitle := some (next.autoTitle.getD "" ++ " (conflict copy)") }
  else
    { next with autoTitle := some "Conflict copy" }

/-- Outcome of one resolver invocation: the local chat store, the sync state,
and the payloads explicitly queued on the uploader. -/
structure ResolverOutcome where
  chat : List DConv
  sync : ChatSyncState
  queued : List SyncConv

/-- `handleUpsertConflict` of the resolver, as a pure function of its inputs:
the conflicting id, the attempted payload (if buffered), the result of the
remote GET, the freshly minted copy id, the current time, and the local
chat/sync state. The uploader's `queueUpsert` effect on the sync store
(`markDirty(copyId, 'upsert')`, clear error) is inlined, and the queued payload
is reported in `queued`. -/
def handleUpsertConflict (conversationId : String)
    (attemptedData : Option SyncConv)
    (remoteRes : Except String RemoteConvRecord) (copyId : String) (now : Nat)
    (chat : List DConv) (sync : ChatSyncState) : ResolverOutcome :=
  match attemptedData with
  | none =>
    ⟨chat, setError sync conversationId
        (some "conflict: missing attempted upsert payload"), []⟩
  | some attempted =>
    match remoteRes with
    | .error e =>
      ⟨chat, setError sync conversationId
          (some ("conflict: failed to fetch remote: " ++ e)), []⟩
    | .ok remote =>
      -- 2) create a local copy under a new id (imported under mute)
      let copyPayload := makeConflictCopyPayload attempted copyId now
      let chat1 := importConversation chat (inflateConversationFromSync copyPayload)
      -- queueUpsert(copyPayload): buffer payload, markDirty, clear error
      let sync1 := setError (markDirty sync copyId .upsert) copyId none
      -- 3) overwrite original id with remote truth (or apply tombstone)
      let chat2 :=
        match remote.data with
        | none => deleteConversations chat1 [conversationId]
        | some rconv =>
          if remote.deleted then deleteConversations chat1 [conversationId]
          else importConversation chat1 (inflateConversationFromSync rconv)
      -- 4) update revision knowledge, clear dirty op and error
      let sync2 := setError
          (clearDirty (setRemoteRevision sync1 conversationId remote.revision)
            conversationId)
          conversationId none
      ⟨chat2, sync2, [copyPayload]⟩

/-! ## Uploader (`chatSyncUploader.ts`) -/

/-- Per-key uploader context outside the sync store: the in-flight flag, the
transport mode, and the buffered upsert payload. -/
structure FlushContext where
  inFlight : Bool
  transportDisabled : Bool
  pendingPayload : Option SyncConv
deriving DecidableEq, Repr

/-- The transport's answer to the attempted write, as `tryFlush` inspects it:
a 2xx ACK with the new revision, a structured 409 (the resolver is wired), or
any other failure with an error string. -/
inductive TransportWriteOutcome where
  | ack (revision : Nat)
  | conflict409 (currentRevision : Nat) (deleted : Bool)
  | failed (error : String)
deriving DecidableEq, Repr

/-- Result of one `tryFlush` call: the sync state, the buffered payload, and
whether the 409 was delegated to the conflict resolver. -/
structure FlushResult where
  sync : ChatSyncState
  pendingPayload : Option SyncConv
  delegated : Bool

/-- `tryFlush` of the uploader for one key, as a pure function: early returns
on in-flight / not dirty / transport disabled; records the attempt and clears
the error; for an upsert requires the buffered payload; then applies the
transport outcome (ACK: set remote revision, clear dirty, drop payload;
409: delegate to the resolver; other failure: record the error). -/
def tryFlush (st : ChatSyncState) (conversationId : String)
    (ctx : FlushContext) (outcome : TransportWriteOutcome) (attemptAt : Nat) :
    FlushResult :=
  if ctx.inFlight then ⟨st, ctx.pendingPayload, false⟩
  else
    match st.dirtyOpById conversationId with
    | none => ⟨st, ctx.pendingPayload, false⟩
    | some dirtyOp =>
      if ctx.transportDisabled then ⟨st, ctx.pendingPayload, false⟩
      else
        let st1 := setError (setAttempt st conversationId attemptAt)
            conversationId none
        match dirtyOp with
        | .upsert =>
          match ctx.pendingPayload with
          | none =>
            ⟨setError st1 conversationId (some "missing upsert payload"),
              none, false⟩
          | some _ =>
            match outcome with
            | .ack rev =>
              ⟨clearDirty (setRemoteRevision st1 conversationId rev)
                  conversationId, none, false⟩
            | .conflict409 _ _ => ⟨st1, ctx.pendingPayload, true⟩
            | .failed e =>
              ⟨setError st1 conversationId (some e), ctx.pendingPayload, false⟩
        | .delete =>
          match outcome with
          | .ack rev =>
            ⟨clearDirty (setRemoteRevision st1 conversationId rev)
                conversationId, none, false⟩
          | .conflict409 _ _ => ⟨st1, ctx.pendingPayload, true⟩
          | .failed e =>
            ⟨setError st1 conversationId (some e), ctx.pendingPayload, false⟩

/-! ## Agent initial pull, list phase (`chatSyncAgent.ts`) -/

/-- Step 1 of `initialPullAndApplyRemote`: record the listed remote revisions,
skipping every id that is dirty in the `dirtyAtStartup` snapshot (taken from
the sync store before the loop). Items are `(conversationId, revision)`. -/
def initialPullRecordRevisions (items : List (String × Nat))
    (st : ChatSyncState) : ChatSyncState :=
  let dirtyAtStartup := st.dirtyOpById
  items.foldl
    (fun acc item =>
      if (dirtyAtStartup item.1).isSome then acc
      else setRemoteRevision acc item.1 item.2)
    st

/-! ## Change watcher (`chatSyncWatcher.ts`) -/

/-- `new Map(list.map(c => [c.id, c]))`: keys keep first-insertion order, a
later entry with the same id overwrites the value. -/
def dedupById (cs : List DConv) : List DConv :=
  cs.foldl
    (fun acc c =>
      if acc.any (fun x => x.id = c.id) then
        acc.map (fun x => if x.id = c.id then c else x)
      else acc ++ [c])
    []

/-- `queueUpsert` of the watcher: drop when muted or not sync-eligible, else
queue an upsert intent for the conversation's id. -/
def watcherQueueUpsert (isMuted : String → Bool) (c : DConv) :
    Option (String × ChatSyncOpKind) :=
  if isMuted c.id then none
  else if ¬ isConversationSyncEligible c then none
  else some (c.id, .upsert)

/-- `queueDelete` of the watcher: drop when muted, else queue a delete
intent. -/
def watcherQueueDelete (isMuted : String → Bool) (id : String) :
    Option (String × ChatSyncOpKind) :=
  if isMuted id then none
  else some (id, .delete)

/-- `handleStoreChange` of the watcher: diff the previous and next conversation
lists and return the intents queued in response (deletions first, then
additions/updates), with the mute and eligibility gates of the source. -/
def handleStoreChange (isMuted : String → Bool)
    (prevState nextState : List DConv) : List (String × ChatSyncOpKind) :=
  let prevById := dedupById prevState
  let nextById := dedupById nextState
  let deletions := prevById.filterMap (fun prevConv =>
    if nextById.any (fun x => x.id = prevConv.id) then none
    else if isMuted prevConv.id then none
    else if ¬ isConversationSyncEligible prevConv then none
    else watcherQueueDelete isMuted prevConv.id)
  let changes := nextById.filterMap (fun nextConv =>
    if isMuted nextConv.id then none
    else
      match prevById.find? (fun x => x.id = nextConv.id) with
      | none =>
        if isConversationSyncEligible nextConv then
          watcherQueueUpsert isMuted nextConv
        else none
      | some prevConv =>
        if prevConv = nextConv then none
        else
          let prevElig := isConversationSyncEligible prevConv
          let nextElig := isConversationSyncEligible nextConv
          if prevElig ∧ ¬ nextElig then watcherQueueDelete isMuted nextConv.id
          else if nextElig then watcherQueueUpsert isMuted nextConv
          else none)
  deletions ++ changes

/-! ## Realtime event handler (`chatSyncAgent.ts`, `startRealtimeAfterInit`) -/

/-- A validated `conversation_changed` event as queued by the realtime
listener. -/
structure RealtimeEvent where
  conversationId : String
  revision : ℚ
  deleted : Bool
  updatedAt : Option JsNumber
deriving DecidableEq, Repr

/-- The `conversation_changed` listener of `startRealtimeAfterInit`: parse the
frame (`none` input = `JSON.parse` threw), then validate shape, `type`,
`conversationId`, `revision` and `deleted`; malformed input returns without
queueing (`none`), well-formed input yields the queued event. -/
def handleConversationChangedMessage (raw : Option JsValue) :
    Option RealtimeEvent :=
  match raw with
  | none => none
  | some data =>
    if ¬ jsTruthy data ∨ ¬ jsTypeofObject data then none
    else if ¬ jsStrictEqStr (getField data "type") "conversation_changed" then
      none
    else
      match getField data "conversationId" with
      | .str conversationId =>
        match getField data "revision" with
        | .num (.finite q) =>
          if q < 0 then none
          else
            match getField data "deleted" with
            | .bool deleted =>
              let updatedAt :=
                match getField data "updatedAt" with
                | .num n => some n
                | _ => none
              some ⟨conversationId, q, deleted, updatedAt⟩
            | _ => none
        | _ => none
      | _ => none

/-- Malformed realtime frames: unparseable JSON (`none`), a payload that is not
an object, a `type` other than `conversation_changed`, a non-string
`conversationId`, a `revision` that is not a finite non-negative number, or a
non-boolean `deleted` flag. -/
def realtimeFrameMalformed (raw : Option JsValue) : Prop :=
  raw = none ∨
  ∃ d, raw = some d ∧
    ((∀ fields, d ≠ .obj fields) ∨
     ¬ jsStrictEqStr (getField d "type") "conversation_changed" ∨
     (∀ s, getField d "conversationId" ≠ .str s) ∨
     (∀ q : ℚ, 0 ≤ q → getField d "revision" ≠ .num (.finite q)) ∨
     (∀ b, getField d "deleted" ≠ .bool b))

/-! ## Concrete fixtures used by the witness statements -/

/-- A sync state with one dirty upsert on id `a` and no revision knowledge. -/
def sampleSyncState : ChatSyncState :=
  { remoteRevisionById := fun _ => none,
    dirtyOpById := fun x => if x = "a" then some .upsert else none,
    lastAttemptAtById := fun _ => none,
    lastErrorById := fun _ => none }

/-- A wire conversation used as an attempted upsert payload. -/
def sampleConv : SyncConv :=
  { id := "a", userTitle := some "Title", autoTitle := none,
    created := 0, updated := 0, messages := ["hello"] }

/-- A remote record at revision 7 holding a blob for id `a`. -/
def sampleRemote : RemoteConvRecord :=
  { revision := 7, deleted := false,
    data := some { id := "a", userTitle := some "Remote", autoTitle := none,
                   created := 0, updated := 0, messages := ["r"] } }

/-- An eligible local conversation with id `x`. -/
def sampleDConv : DConv :=
  { id := "x", userTitle := some "T", autoTitle := none,
    created := 0, updated := 0, messages := ["m"],
    isIncognito := false, tokenCount := 0 }

/-! ## Route decompositions -/

/-- The PUT route on a standard `{baseRevision: null, data}` body reduces to
the data checks followed by the store call. -/
theorem putRoute_nullBase_eq (cid : String) (d : JsValue) (row : Option SyncRow) :
    putConversationRoute cid (.obj [("baseRevision", .nullv), ("data", d)]) row =
      (match d with
       | .undefined => (.badRequest "missing_data", row)
       | d' =>
         if !(jsIsUndefined (getField d' "id")) &&
             !(jsStrictEqStr (getField d' "id") cid) then
           (.badRequest "payload_id_mismatch", row)
         else
           writeResultToResponse cid (tryUpsertConversation row none d')) := rfl

/-- The DELETE route on a `{baseRevision: brv}` body reduces to the
`baseRevision` parse followed by the store call. -/
theorem deleteRoute_body_eq (cid : String) (brv : JsValue) (row : Option SyncRow) :
    deleteConversationRoute cid (some (.obj [("baseRevision", brv)])) row =
      (match parseBaseRevision brv with
       | .invalid => (.badRequest "invalid_base_revision", row)
       | p =>
         writeResultToResponse cid
           (tryTombstoneConversation row (effectiveBaseRevision p))) := rfl

/-! ## C1 -/

/-- C1: an upsert with `baseRevision = null` against an existing row never
overwrites: the store returns `Conflict(currentRevision, currentDeleted)` and
the row (revision, deleted flag, blob) is unchanged, and the PUT route turns
this into the 409 conflict response carrying the current revision and deleted
flag. -/
theorem upsert_nullBase_never_overwrites (conversationId : String) (r : SyncRow)
    (d : JsValue) (hd : d ≠ .undefined)
    (hid : getField d "id" = .undefined ∨ getField d "id" = .str conversationId) :
    tryUpsertConversation (some r) none d
        = (.conflict r.revision r.deleted, some r) ∧
    putConversationRoute conversationId
        (.obj [("baseRevision", .nullv), ("data", d)]) (some r)
      = (.conflictR conversationId r.revision r.deleted, some r) := by
  refine ⟨rfl, ?_⟩
  rw [putRoute_nullBase_eq]
  cases d with
  | undefined => exact absurd rfl hd
  | obj fields =>
    rcases hid with h | h <;>
      simp [h, jsIsUndefined, jsStrictEqStr, tryUpsertConversation,
        writeResultToResponse]
  | nullv => rfl
  | bool b => rfl
  | num n => rfl
  | str s => rfl
  | arr elems => rfl

/-- C1 witness: concrete instance — key `c1` at revision 3, create-style PUT
conflicts and leaves the row unchanged. -/
theorem upsert_nullBase_never_overwrites_witness :
    tryUpsertConversation (some ⟨3, false, some .nullv⟩) none
        (.obj [("id", .str "c1")])
      = (.conflict 3 false, some ⟨3, false, some .nullv⟩) ∧
    putConversationRoute "c1"
        (.obj [("baseRevision", .nullv), ("data", .obj [("id", .str "c1")])])
        (some ⟨3, false, some .nullv⟩)
      = (.conflictR "c1" 3 false, some ⟨3, false, some .nullv⟩) :=
  upsert_nullBase_never_overwrites "c1" ⟨3, false, some .nullv⟩
    (.obj [("id", .str "c1")]) (by simp) (Or.inr (by rfl))

/-! ## C2 -/

/-- C2: every accepted write strictly increases the key's revision (from
absent, the first revision is 1), and the post-state of an accepted upsert is
`deleted = false` with the new blob stored, while the post-state of an
accepted tombstone is `deleted = true` with a null blob. -/
theorem accepted_writes_monotonic_post_state
    (row : Option SyncRow) (base : Option ℚ) (d : JsValue) (rev : Nat)
    (row' : Option SyncRow) :
    (tryUpsertConversation row base d = (.ok rev, row') →
      row' = some ⟨rev, false, some d⟩ ∧ 0 < rev ∧
      ∀ r0, row = some r0 → r0.revision < rev) ∧
    (tryTombstoneConversation row base = (.ok rev, row') →
      row' = some ⟨rev, true, none⟩ ∧ 0 < rev ∧
      ∀ r0, row = some r0 → r0.revision < rev) := by
  constructor
  · intro h
    cases base with
    | none =>
      cases row with
      | none =>
        simp only [tryUpsertConversation, Prod.mk.injEq, SyncWriteResult.ok.injEq] at h
        obtain ⟨h1, h2⟩ := h
        subst h1
        exact ⟨h2.symm, Nat.one_pos, by intro r0 hr0; cases hr0⟩
      | some r0 => simp [tryUpsertConversation] at h
    | some b =>
      cases row with
      | none => simp [tryUpsertConversation] at h
      | some r0 =>
        simp only [tryUpsertConversation] at h
        split at h
        · simp only [Prod.mk.injEq, SyncWriteResult.ok.injEq] at h
          obtain ⟨h1, h2⟩ := h
          subst h1
          refine ⟨h2.symm, Nat.succ_pos _, ?_⟩
          intro r1 hr1
          cases hr1
          exact Nat.lt_succ_self _
        · simp at h
  · intro h
    cases base with
    | none =>
      cases row with
      | none =>
        simp only [tryTombstoneConversation, Prod.mk.injEq,
          SyncWriteResult.ok.injEq] at h
        obtain ⟨h1, h2⟩ := h
        subst h1
        exact ⟨h2.symm, Nat.one_pos, by intro r0 hr0; cases hr0⟩
      | some r0 => simp [tryTombstoneConversation] at h
    | some b =>
      cases row with
      | none => simp [tryTombstoneConversation] at h
      | some r0 =>
        simp only [tryTombstoneConversation] at h
        split at h
        · simp only [Prod.mk.injEq, SyncWriteResult.ok.injEq] at h
          obtain ⟨h1, h2⟩ := h
          subst h1
          refine ⟨h2.symm, Nat.succ_pos _, ?_⟩
          intro r1 hr1
          cases hr1
          exact Nat.lt_succ_self _
        · simp at h

/-- C2 witness: an update-style upsert at base revision 3 yields revision 4
with the new blob stored un-deleted. -/
theorem accepted_writes_monotonic_post_state_witness :
    (some ⟨4, false, some .nullv⟩ : Option SyncRow) = some ⟨4, false, some .nullv⟩ ∧
    0 < 4 ∧
    (∀ r0, (some ⟨3, false, some (.str "x")⟩ : Option SyncRow) = some r0 →
      r0.revision < 4) :=
  (accepted_writes_monotonic_post_state (some ⟨3, false, some (.str "x")⟩)
    (some 3) .nullv 4 (some ⟨4, false, some .nullv⟩)).1 (by norm_num [tryUpsertConversation])

/-! ## C3 -/

/-- C3: a delete with `baseRevision = null` on an absent key creates a
tombstone at revision 1 (`deleted = true`, null blob) and returns `Ok(1)`;
the DELETE route answers 200 with revision 1, and a subsequent GET of the key
returns revision 1, `deleted = true` and `data = null`. -/
theorem delete_nullBase_absent_creates_tombstone (conversationId : String) :
    tryTombstoneConversation none none = (.ok 1, some ⟨1, true, none⟩) ∧
    deleteConversationRoute conversationId
        (some (.obj [("baseRevision", .nullv)])) none
      = (.ok conversationId 1, some ⟨1, true, none⟩) ∧
    getConversationRoute conversationId (some ⟨1, true, none⟩)
      = .getOk conversationId 1 true none :=
  ⟨rfl, rfl, rfl⟩

/-! ## C7 -/

/-- C7 counterexample: an upsert whose `data` field is a JSON array is NOT
rejected with a 400-class error — the PUT route accepts it, stores the array
blob and answers 200 with revision 1 (the object/array shape check of the
route applies to the request wrapper, not to `data`). -/
theorem put_array_blob_accepted_cex :
    putConversationRoute "c1"
        (.obj [("baseRevision", .nullv), ("data", .arr [])]) none
      = (.ok "c1" 1, some ⟨1, false, some (.arr [])⟩) := rfl

/-- General PUT-body decomposition for an arbitrary `baseRevision` field. -/
theorem putRoute_body_eq (cid : String) (brv d : JsValue) (row : Option SyncRow) :
    putConversationRoute cid (.obj [("baseRevision", brv), ("data", d)]) row =
      (match parseBaseRevision brv with
       | .invalid => (.badRequest "invalid_base_revision", row)
       | p =>
         match d with
         | .undefined => (.badRequest "missing_data", row)
         | d' =>
           if !(jsIsUndefined (getField d' "id")) &&
               !(jsStrictEqStr (getField d' "id") cid) then
             (.badRequest "payload_id_mismatch", row)
           else
             writeResultToResponse cid
               (tryUpsertConversation row (effectiveBaseRevision p) d')) := rfl

/-- C7 amended: the PUT route rejects with `400 invalid_body` any request whose
top-level body is not a JSON object (falsy, non-object, or an array), and with
`400 payload_id_mismatch` any `data` blob whose top-level `id` field exists and
is not strictly equal to the path's conversationId, the store being unchanged
in both cases; but it does not require `data` itself to be an object: any
non-absent `data` without a mismatching `id` — including arrays and scalars —
proceeds to the store (shown here by the accepted create). -/
theorem put_body_validation (conversationId : String) (body d : JsValue)
    (row : Option SyncRow) :
    (¬ jsTruthy body ∨ ¬ jsTypeofObject body ∨ jsIsArray body →
      putConversationRoute conversationId body row
        = (.badRequest "invalid_body", row)) ∧
    (¬ jsIsUndefined (getField d "id") →
      ¬ jsStrictEqStr (getField d "id") conversationId →
      putConversationRoute conversationId
          (.obj [("baseRevision", .nullv), ("data", d)]) row
        = (.badRequest "payload_id_mismatch", row)) ∧
    (d ≠ .undefined → getField d "id" = .undefined →
      putConversationRoute conversationId
          (.obj [("baseRevision", .nullv), ("data", d)]) none
        = (.ok conversationId 1, some ⟨1, false, some d⟩)) := by
  refine ⟨?_, ?_, ?_⟩
  · intro h
    unfold putConversationRoute
    rw [if_pos h]
  · intro h1 h2
    rw [putRoute_nullBase_eq]
    cases d with
    | undefined => exact absurd rfl h1
    | obj fields =>
      simp only [Bool.not_eq_true] at h1 h2
      simp [h1, h2]
    | nullv => exact absurd rfl h1
    | bool b => exact absurd rfl h1
    | num n => exact absurd rfl h1
    | str s => exact absurd rfl h1
    | arr elems => exact absurd rfl h1
  · intro hd hid
    rw [putRoute_nullBase_eq]
    cases d with
    | undefined => exact absurd rfl hd
    | obj fields =>
      simp [hid, jsIsUndefined, tryUpsertConversation, writeResultToResponse]
    | nullv => rfl
    | bool b => rfl
    | num n => rfl
    | str s => rfl
    | arr elems => rfl

/-- C7 witness: concrete rejections (falsy body; mismatching blob id) and a
concrete accepted scalar blob. -/
theorem put_body_validation_witness :
    putConversationRoute "c1" .nullv none = (.badRequest "invalid_body", none) ∧
    putConversationRoute "c1"
        (.obj [("baseRevision", .nullv), ("data", .obj [("id", .str "zz")])])
        none
      = (.badRequest "payload_id_mismatch", none) ∧
    putConversationRoute "c1"
        (.obj [("baseRevision", .nullv), ("data", .num (.finite 5))]) none
      = (.ok "c1" 1, some ⟨1, false, some (.num (.finite 5))⟩) :=
  ⟨(put_body_validation "c1" .nullv .undefined none).1 (by simp [jsTruthy]),
   (put_body_validation "c1" .nullv (.obj [("id", .str "zz")]) none).2.1
     (by simp [getField, lookupField, jsIsUndefined])
     (by simp [getField, lookupField, jsStrictEqStr]),
   (put_body_validation "c1" .nullv (.num (.finite 5)) none).2.2
     (by simp) rfl⟩

/-! ## C8 -/

/-- C8 counterexample: `baseRevision = 1.5` is not a non-negative finite
integer, is not null and is not absent, yet the DELETE route does NOT reject
it with 400 — the value passes `parseBaseRevision` and reaches the store,
which answers 404 for the absent row. -/
theorem delete_noninteger_baseRevision_cex :
    deleteConversationRoute "c1"
        (some (.obj [("baseRevision", .num (.finite (3 / 2)))])) none
      = (.notFound, none) := by
  rw [deleteRoute_body_eq]
  norm_num [parseBaseRevision, effectiveBaseRevision, tryTombstoneConversation,
    writeResultToResponse]

/-- C8 amended: `parseBaseRevision` accepts exactly `undefined`, `null` and
finite non-negative numbers (integrality is NOT required); every other
`baseRevision` is rejected by both write routes with
`400 invalid_base_revision` and an unchanged row (hence before any store
access), and an absent `baseRevision` is treated as null. -/
theorem baseRevision_validation (v : JsValue) (cid : String)
    (row : Option SyncRow) (d : JsValue) :
    (parseBaseRevision v = .invalid ↔
      ¬(v = .undefined ∨ v = .nullv ∨ ∃ q : ℚ, 0 ≤ q ∧ v = .num (.finite q))) ∧
    (parseBaseRevision v = .invalid →
      putConversationRoute cid (.obj [("baseRevision", v), ("data", d)]) row
        = (.badRequest "invalid_base_revision", row) ∧
      deleteConversationRoute cid (some (.obj [("baseRevision", v)])) row
        = (.badRequest "invalid_base_revision", row)) ∧
    (deleteConversationRoute cid (some (.obj [])) row
      = deleteConversationRoute cid (some (.obj [("baseRevision", .nullv)])) row) := by
  refine ⟨?_, ?_, rfl⟩
  · cases v with
    | num n =>
      cases n with
      | finite q =>
        simp only [parseBaseRevision]
        split
        · rename_i hq
          simp only [reduceCtorEq, false_iff, not_not]
          exact Or.inr (Or.inr ⟨q, hq, rfl⟩)
        · rename_i hq
          simp only [true_iff]
          rintro (h | h | ⟨q', hq', h⟩)
          · exact absurd h (by simp)
          · exact absurd h (by simp)
          · simp only [JsValue.num.injEq, JsNumber.finite.injEq] at h
            subst h
            exact hq hq'
      | nan => simp [parseBaseRevision]
      | posInf => simp [parseBaseRevision]
      | negInf => simp [parseBaseRevision]
    | undefined => simp [parseBaseRevision]
    | nullv => simp [parseBaseRevision]
    | bool b => simp [parseBaseRevision]
    | str s => simp [parseBaseRevision]
    | arr elems => simp [parseBaseRevision]
    | obj fields => simp [parseBaseRevision]
  · intro h
    constructor
    · rw [putRoute_body_eq, h]
    · rw [deleteRoute_body_eq, h]

/-- C8 witness: a string `baseRevision` is rejected by both routes with the
row untouched. -/
theorem baseRevision_validation_witness :
    putConversationRoute "c1"
        (.obj [("baseRevision", .str "x"), ("data", .nullv)]) none
      = (.badRequest "invalid_base_revision", none) ∧
    deleteConversationRoute "c1" (some (.obj [("baseRevision", .str "x")])) none
      = (.badRequest "invalid_base_revision", none) :=
  (baseRevision_validation (.str "x") "c1" none .nullv).2.1 rfl

/-! ## C9 -/

/-- Inversion of an accepted tombstone: the post-row is the tombstone at the
returned revision, and the call was either a create on an absent row
(revision 1) or a matched update (revision + 1). -/
theorem tombstone_ok_inv (row row' : Option SyncRow) (base : Option ℚ) (R : Nat)
    (h : tryTombstoneConversation row base = (.ok R, row')) :
    row' = some ⟨R, true, none⟩ ∧
    (base = none ∧ row = none ∧ R = 1 ∨
     ∃ r0, row = some r0 ∧ base = some ((r0.revision : ℚ)) ∧
       R = r0.revision + 1) := by
  cases base with
  | none =>
    cases row with
    | none =>
      simp only [tryTombstoneConversation, Prod.mk.injEq,
        SyncWriteResult.ok.injEq] at h
      obtain ⟨h1, h2⟩ := h
      subst h1
      exact ⟨h2.symm, Or.inl ⟨rfl, rfl, rfl⟩⟩
    | some r0 => simp [tryTombstoneConversation] at h
  | some b =>
    cases row with
    | none => simp [tryTombstoneConversation] at h
    | some r0 =>
      simp only [tryTombstoneConversation] at h
      split at h
      · rename_i hb
        simp only [Prod.mk.injEq, SyncWriteResult.ok.injEq] at h
        obtain ⟨h1, h2⟩ := h
        subst h1
        exact ⟨h2.symm, Or.inr ⟨r0, rfl, by rw [hb], rfl⟩⟩
      · simp at h

/-- A second tombstone call with the same base revision against the row left
by an accepted first call conflicts with the first call's revision. -/
theorem tombstone_repeat_conflicts (base : Option ℚ) (row row' : Option SyncRow)
    (R : Nat) (h : tryTombstoneConversation row base = (.ok R, row')) :
    tryTombstoneConversation row' base = (.conflict R true, row') := by
  obtain ⟨hrow', hcase⟩ := tombstone_ok_inv row row' base R h
  subst hrow'
  rcases hcase with ⟨hb, _, hR⟩ | ⟨r0, hrow, hb, hR⟩
  · subst hb
    subst hR
    rfl
  · subst hb
    subst hR
    simp only [tryTombstoneConversation]
    rw [if_neg]
    intro hcontra
    have : r0.revision + 1 = r0.revision := by exact_mod_cast hcontra
    omega

/-- Inversion of the response mapping: only an accepted store write maps to the
200 response. -/
theorem writeResultToResponse_ok_inv (cid : String)
    (t : SyncWriteResult × Option SyncRow) (R : Nat) (row' : Option SyncRow)
    (h : writeResultToResponse cid t = (.ok cid R, row')) : t = (.ok R, row') := by
  rcases t with ⟨res, row2⟩
  cases res <;> simp_all [writeResultToResponse]

/-- C9: if a DELETE with some `baseRevision` body succeeds with revision `R`,
then the identical second DELETE returns the 409 conflict response carrying
`currentRevision = R` and `deleted = true`, and the stored tombstone row is
unchanged. -/
theorem successive_identical_deletes (conversationId : String) (brv : JsValue)
    (row row' : Option SyncRow) (R : Nat)
    (h : deleteConversationRoute conversationId
          (some (.obj [("baseRevision", brv)])) row
        = (.ok conversationId R, row')) :
    deleteConversationRoute conversationId
        (some (.obj [("baseRevision", brv)])) row'
      = (.conflictR conversationId R true, row') := by
  rw [deleteRoute_body_eq] at h ⊢
  cases hp : parseBaseRevision brv <;> rw [hp] at h
  case invalid => simp at h
  case missing =>
    replace h : writeResultToResponse conversationId
        (tryTombstoneConversation row none) = (.ok conversationId R, row') := h
    show writeResultToResponse conversationId
        (tryTombstoneConversation row' none) = _
    rw [tombstone_repeat_conflicts none row row' R
      (writeResultToResponse_ok_inv _ _ _ _ h)]
    rfl
  case null =>
    replace h : writeResultToResponse conversationId
        (tryTombstoneConversation row none) = (.ok conversationId R, row') := h
    show writeResultToResponse conversationId
        (tryTombstoneConversation row' none) = _
    rw [tombstone_repeat_conflicts none row row' R
      (writeResultToResponse_ok_inv _ _ _ _ h)]
    rfl
  case value q =>
    replace h : writeResultToResponse conversationId
        (tryTombstoneConversation row (some q)) = (.ok conversationId R, row') := h
    show writeResultToResponse conversationId
        (tryTombstoneConversation row' (some q)) = _
    rw [tombstone_repeat_conflicts (some q) row row' R
      (writeResultToResponse_ok_inv _ _ _ _ h)]
    rfl

/-- C9 witness: two identical null-base DELETEs on a fresh key — the first
creates the tombstone at revision 1, the second answers 409 with revision 1
and `deleted = true`, leaving the tombstone unchanged. -/
theorem successive_identical_deletes_witness :
    deleteConversationRoute "c1" (some (.obj [("baseRevision", .nullv)]))
        (some ⟨1, true, none⟩)
      = (.conflictR "c1" 1 true, some ⟨1, true, none⟩) :=
  successive_identical_deletes "c1" .nullv none (some ⟨1, true, none⟩) 1 rfl

/-! ## Sync-state frame lemmas -/

/-- `setError` does not touch revision knowledge. -/
theorem setError_remoteRevision (st : ChatSyncState) (id : String)
    (e : Option String) :
    (setError st id e).remoteRevisionById = st.remoteRevisionById := rfl

/-- `setAttempt` does not touch revision knowledge. -/
theorem setAttempt_remoteRevision (st : ChatSyncState) (id : String) (t : Nat) :
    (setAttempt st id t).remoteRevisionById = st.remoteRevisionById := rfl

/-- `markDirty` does not touch revision knowledge. -/
theorem markDirty_remoteRevision (st : ChatSyncState) (id : String)
    (op : ChatSyncOpKind) :
    (markDirty st id op).remoteRevisionById = st.remoteRevisionById := rfl

/-- `clearDirty` does not touch revision knowledge. -/
theorem clearDirty_remoteRevision (st : ChatSyncState) (id : String) :
    (clearDirty st id).remoteRevisionById = st.remoteRevisionById := rfl

/-- Revision knowledge after `setRemoteRevision`. -/
theorem setRemoteRevision_remoteRevision (st : ChatSyncState) (id x : String)
    (rev : Nat) :
    (setRemoteRevision st id rev).remoteRevisionById x
      = if x = id then some rev else st.remoteRevisionById x := rfl

/-! ## C4 -/

/-- The list-recording fold never touches the revision knowledge of an id that
is dirty in the snapshot the fold filters against. -/
theorem recordRevisions_foldl_frame (dirty : String → Option ChatSyncOpKind)
    (items : List (String × Nat)) (acc : ChatSyncState) (id : String)
    (hid : (dirty id).isSome) :
    (items.foldl (fun acc item =>
        if (dirty item.1).isSome then acc
        else setRemoteRevision acc item.1 item.2) acc).remoteRevisionById id
      = acc.remoteRevisionById id := by
  induction items generalizing acc with
  | nil => rfl
  | cons hd tl ih =>
    simp only [List.foldl_cons]
    rw [ih]
    by_cases hd1 : (dirty hd.1).isSome
    · rw [if_pos hd1]
    · rw [if_neg hd1]
      have hne : id ≠ hd.1 := by
        intro hcontra
        rw [hcontra] at hid
        exact hd1 hid
      simp [setRemoteRevision, hne]

/-- `tryFlush` either leaves the revision knowledge of every id unchanged, or
the call was a 2xx ACK and only the flushed id was set to the acknowledged
revision. -/
theorem tryFlush_remoteRevision_char (st : ChatSyncState) (id : String)
    (ctx : FlushContext) (outcome : TransportWriteOutcome) (attemptAt : Nat)
    (x : String) :
    (tryFlush st id ctx outcome attemptAt).sync.remoteRevisionById x
      = st.remoteRevisionById x ∨
    (x = id ∧ ∃ rev, outcome = .ack rev ∧
      (tryFlush st id ctx outcome attemptAt).sync.remoteRevisionById x
        = some rev) := by
  unfold tryFlush
  split
  · exact Or.inl rfl
  · split
    · exact Or.inl rfl
    · split
      · exact Or.inl rfl
      · split
        · -- upsert
          split
          · exact Or.inl rfl
          · match outcome with
            | .ack rev =>
              by_cases hx : x = id
              · exact Or.inr ⟨hx, rev, rfl, by
                  simp [clearDirty_remoteRevision,
                    setRemoteRevision_remoteRevision, setError_remoteRevision,
                    setAttempt_remoteRevision, hx]⟩
              · exact Or.inl (by
                  simp [clearDirty_remoteRevision,
                    setRemoteRevision_remoteRevision, setError_remoteRevision,
                    setAttempt_remoteRevision, hx])
            | .conflict409 cur del => exact Or.inl rfl
            | .failed e => exact Or.inl rfl
        · -- delete
          match outcome with
          | .ack rev =>
            by_cases hx : x = id
            · exact Or.inr ⟨hx, rev, rfl, by
                simp [clearDirty_remoteRevision,
                  setRemoteRevision_remoteRevision, setError_remoteRevision,
                  setAttempt_remoteRevision, hx]⟩
            · exact Or.inl (by
                simp [clearDirty_remoteRevision,
                  setRemoteRevision_remoteRevision, setError_remoteRevision,
                  setAttempt_remoteRevision, hx])
          | .conflict409 cur del => exact Or.inl rfl
          | .failed e => exact Or.inl rfl

/-- The resolver either leaves the revision knowledge of every id unchanged, or
the remote GET succeeded and only the conflicting id was set to the remote
revision. -/
theorem handleUpsertConflict_remoteRevision_char (origId : String)
    (att : Option SyncConv) (remoteRes : Except String RemoteConvRecord)
    (copyId : String) (now : Nat) (chat : List DConv) (st : ChatSyncState)
    (x : String) :
    (handleUpsertConflict origId att remoteRes copyId now chat
        st).sync.remoteRevisionById x = st.remoteRevisionById x ∨
    (x = origId ∧ ∃ remote, remoteRes = .ok remote ∧
      (handleUpsertConflict origId att remoteRes copyId now chat
          st).sync.remoteRevisionById x = some remote.revision) := by
  cases att with
  | none => exact Or.inl rfl
  | some attempted =>
    cases remoteRes with
    | error e => exact Or.inl rfl
    | ok remote =>
      by_cases hx : x = origId
      · refine Or.inr ⟨hx, remote, rfl, ?_⟩
        simp [handleUpsertConflict, setError_remoteRevision,
          clearDirty_remoteRevision, setRemoteRevision_remoteRevision,
          markDirty_remoteRevision, hx]
      · refine Or.inl ?_
        simp [handleUpsertConflict, setError_remoteRevision,
          clearDirty_remoteRevision, setRemoteRevision_remoteRevision,
          markDirty_remoteRevision, hx]

/-- C4: the client updates `remoteRevision[id]` only at the allowed sites: the
initial-pull metadata scan never updates it for an id whose dirty op is set,
`tryFlush` changes revision knowledge only for the flushed id on a successful
write acknowledgment, and the conflict resolver changes it only for the
conflicting id on acceptance of a successfully fetched remote version. -/
theorem remoteRevision_update_sites (st : ChatSyncState)
    (items : List (String × Nat)) (id x : String) (ctx : FlushContext)
    (outcome : TransportWriteOutcome) (attemptAt : Nat)
    (origId copyId : String) (att : Option SyncConv)
    (remoteRes : Except String RemoteConvRecord) (now : Nat)
    (chat : List DConv) :
    ((st.dirtyOpById id).isSome →
      (initialPullRecordRevisions items st).remoteRevisionById id
        = st.remoteRevisionById id) ∧
    ((tryFlush st id ctx outcome attemptAt).sync.remoteRevisionById x
        ≠ st.remoteRevisionById x →
      x = id ∧ ∃ rev, outcome = .ack rev ∧
        (tryFlush st id ctx outcome attemptAt).sync.remoteRevisionById x
          = some rev) ∧
    ((handleUpsertConflict origId att remoteRes copyId now chat
        st).sync.remoteRevisionById x ≠ st.remoteRevisionById x →
      x = origId ∧ ∃ remote, remoteRes = .ok remote ∧
        (handleUpsertConflict origId att remoteRes copyId now chat
            st).sync.remoteRevisionById x = some remote.revision) := by
  refine ⟨?_, ?_, ?_⟩
  · intro hid
    exact recordRevisions_foldl_frame st.dirtyOpById items st id hid
  · intro hne
    rcases tryFlush_remoteRevision_char st id ctx outcome attemptAt x with
      h | h
    · exact absurd h hne
    · exact h
  · intro hne
    rcases handleUpsertConflict_remoteRevision_char origId att remoteRes copyId
        now chat st x with h | h
    · exact absurd h hne
    · exact h

/-- C4 witness: with id `a` dirty, the list scan leaves its revision knowledge
untouched; a flush ACK at revision 5 and a resolver acceptance at revision 7
are the only updates. -/
theorem remoteRevision_update_sites_witness :
    ((initialPullRecordRevisions [("a", 9)] sampleSyncState).remoteRevisionById
        "a" = sampleSyncState.remoteRevisionById "a") ∧
    ("a" = "a" ∧ ∃ rev, TransportWriteOutcome.ack 5 = .ack rev ∧
      (tryFlush sampleSyncState "a" ⟨false, false, some sampleConv⟩ (.ack 5)
          0).sync.remoteRevisionById "a" = some rev) ∧
    ("a" = "a" ∧ ∃ remote,
      (Except.ok sampleRemote : Except String RemoteConvRecord) = .ok remote ∧
      (handleUpsertConflict "a" (some sampleConv) (.ok sampleRemote) "b" 0 []
          sampleSyncState).sync.remoteRevisionById "a"
        = some remote.revision) := by
  obtain ⟨h1, h2, h3⟩ := remoteRevision_update_sites sampleSyncState [("a", 9)]
    "a" "a" ⟨false, false, some sampleConv⟩ (.ack 5) 0 "a" "b"
    (some sampleConv) (.ok sampleRemote) 0 []
  exact ⟨h1 (by simp [sampleSyncState]), h2 (by decide), h3 (by decide)⟩

/-! ## Local store lemmas -/

/-- Importing a conversation makes it present (it overwrites the same-id entry
or is appended). -/
theorem mem_importConversation_self (l : List DConv) (c : DConv) :
    c ∈ importConversation l c := by
  unfold importConversation
  split
  · rename_i hany
    rw [List.any_eq_true] at hany
    obtain ⟨a, ha, haid⟩ := hany
    rw [List.mem_map]
    exact ⟨a, ha, by rw [if_pos (by simpa using haid)]⟩
  · simp

/-- Importing a conversation keeps every entry with a different id. -/
theorem mem_importConversation_of_ne (l : List DConv) (c x : DConv)
    (hx : x ∈ l) (hne : x.id ≠ c.id) : x ∈ importConversation l c := by
  unfold importConversation
  split
  · rw [List.mem_map]
    exact ⟨x, hx, if_neg hne⟩
  · exact List.mem_append_left _ hx

/-- After deleting an id, no remaining conversation carries it. -/
theorem deleteConversations_id_ne (l : List DConv) (idd : String) (c : DConv)
    (hc : c ∈ deleteConversations l [idd]) : c.id ≠ idd := by
  unfold deleteConversations at hc
  rw [List.mem_filter] at hc
  have h2 := hc.2
  simp only [List.contains_cons, List.contains_nil, Bool.or_false,
    decide_eq_true_eq] at h2
  intro hcontra
  rw [hcontra] at h2
  simp at h2

/-- Deleting other ids keeps a conversation whose id is not listed. -/
theorem mem_deleteConversations (l : List DConv) (ids : List String) (x : DConv)
    (hx : x ∈ l) (h : ids.contains x.id = false) :
    x ∈ deleteConversations l ids := by
  unfold deleteConversations
  rw [List.mem_filter]
  refine ⟨hx, ?_⟩
  rw [decide_eq_true_eq]
  intro hc
  rw [h] at hc
  cases hc

/-- The conflict copy carries the freshly minted id. -/
theorem makeConflictCopyPayload_id (a : SyncConv) (i : String) (n : Nat) :
    (makeConflictCopyPayload a i n).id = i := by
  unfold makeConflictCopyPayload
  dsimp only
  split_ifs <;> rfl

/-- The conflict copy preserves the attempted message list. -/
theorem makeConflictCopyPayload_messages (a : SyncConv) (i : String) (n : Nat) :
    (makeConflictCopyPayload a i n).messages = a.messages := by
  unfold makeConflictCopyPayload
  dsimp only
  split_ifs <;> rfl

/-! ## C5 -/

/-- C5: on an upsert 409 with a buffered payload — when the remote GET fails,
the resolver records only an error (chat store unchanged, nothing queued,
revision knowledge and dirty ops untouched); when the GET succeeds, the
attempted edit is preserved as a conflict copy under the fresh id and queued
for upload, the original id ends up reflecting remote truth (deleted locally
for a tombstone, the imported remote blob otherwise), and the original id's
remote revision is set to the remote's with the dirty op and error cleared.
The copy's title carries the " (conflict copy)" suffix (default title when the
attempted payload had none) and the attempted message content is preserved. -/
theorem upsert_conflict_resolver_behavior (origId copyId : String)
    (attempted : SyncConv) (now : Nat) (chat : List DConv)
    (sync : ChatSyncState) :
    (∀ e : String,
      (handleUpsertConflict origId (some attempted) (.error e) copyId now chat
          sync).chat = chat ∧
      (handleUpsertConflict origId (some attempted) (.error e) copyId now chat
          sync).queued = [] ∧
      (∀ x, (handleUpsertConflict origId (some attempted) (.error e) copyId now
          chat sync).sync.remoteRevisionById x = sync.remoteRevisionById x) ∧
      (∀ x, (handleUpsertConflict origId (some attempted) (.error e) copyId now
          chat sync).sync.dirtyOpById x = sync.dirtyOpById x) ∧
      (handleUpsertConflict origId (some attempted) (.error e) copyId now chat
          sync).sync.lastErrorById origId
        = some ("conflict: failed to fetch remote: " ++ e)) ∧
    (∀ remote : RemoteConvRecord, copyId ≠ origId →
      (handleUpsertConflict origId (some attempted) (.ok remote) copyId now chat
          sync).queued = [makeConflictCopyPayload attempted copyId now] ∧
      (makeConflictCopyPayload attempted copyId now).id = copyId ∧
      (handleUpsertConflict origId (some attempted) (.ok remote) copyId now chat
          sync).sync.remoteRevisionById origId = some remote.revision ∧
      (handleUpsertConflict origId (some attempted) (.ok remote) copyId now chat
          sync).sync.dirtyOpById origId = none ∧
      (handleUpsertConflict origId (some attempted) (.ok remote) copyId now chat
          sync).sync.lastErrorById origId = none ∧
      ((remote.deleted = true ∨ remote.data = none) →
        (∀ c ∈ (handleUpsertConflict origId (some attempted) (.ok remote)
            copyId now chat sync).chat, c.id ≠ origId) ∧
        inflateConversationFromSync (makeConflictCopyPayload attempted copyId
            now) ∈ (handleUpsertConflict origId (some attempted) (.ok remote)
            copyId now chat sync).chat) ∧
      (∀ rconv, remote.deleted = false → remote.data = some rconv →
        inflateConversationFromSync rconv
          ∈ (handleUpsertConflict origId (some attempted) (.ok remote) copyId
              now chat sync).chat ∧
        (rconv.id ≠ copyId →
          inflateConversationFromSync (makeConflictCopyPayload attempted copyId
              now) ∈ (handleUpsertConflict origId (some attempted) (.ok remote)
              copyId now chat sync).chat))) ∧
    ((optStrTruthy attempted.userTitle = true →
        (makeConflictCopyPayload attempted copyId now).userTitle
          = some (attempted.userTitle.getD "" ++ " (conflict copy)")) ∧
     (optStrTruthy attempted.userTitle = false →
        optStrTruthy attempted.autoTitle = true →
        (makeConflictCopyPayload attempted copyId now).autoTitle
          = some (attempted.autoTitle.getD "" ++ " (conflict copy)")) ∧
     (optStrTruthy attempted.userTitle = false →
        optStrTruthy attempted.autoTitle = false →
        (makeConflictCopyPayload attempted copyId now).autoTitle
          = some "Conflict copy")) ∧
    (makeConflictCopyPayload attempted copyId now).messages
      = attempted.messages := by
  refine ⟨?_, ?_, ⟨?_, ?_, ?_⟩, makeConflictCopyPayload_messages _ _ _⟩
  · intro e
    refine ⟨rfl, rfl, fun x => rfl, fun x => rfl, ?_⟩
    simp [handleUpsertConflict, setError]
  · intro remote hne
    refine ⟨rfl, makeConflictCopyPayload_id _ _ _, ?_, ?_, ?_, ?_, ?_⟩
    · simp [handleUpsertConflict, setError, clearDirty, setRemoteRevision,
        markDirty]
    · simp [handleUpsertConflict, setError, clearDirty, setRemoteRevision,
        markDirty]
    · simp [handleUpsertConflict, setError, clearDirty, setRemoteRevision,
        markDirty]
    · intro hdel
      have hchat : (handleUpsertConflict origId (some attempted) (.ok remote)
          copyId now chat sync).chat
          = deleteConversations
              (importConversation chat (inflateConversationFromSync
                (makeConflictCopyPayload attempted copyId now))) [origId] := by
        rcases hdata : remote.data with _ | rconv
        · simp [handleUpsertConflict, hdata]
        · rcases hdel with hdel | hdel
          · simp [handleUpsertConflict, hdata, hdel]
          · rw [hdata] at hdel
            cases hdel
      rw [hchat]
      constructor
      · intro c hc
        exact deleteConversations_id_ne _ _ _ hc
      · refine mem_deleteConversations _ _ _
          (mem_importConversation_self _ _) ?_
        simp [inflateConversationFromSync, makeConflictCopyPayload_id, hne]
    · intro rconv hdel hdata
      have hchat : (handleUpsertConflict origId (some attempted) (.ok remote)
          copyId now chat sync).chat
          = importConversation
              (importConversation chat (inflateConversationFromSync
                (makeConflictCopyPayload attempted copyId now)))
              (inflateConversationFromSync rconv) := by
        simp [handleUpsertConflict, hdata, hdel]
      rw [hchat]
      refine ⟨mem_importConversation_self _ _, fun hrc => ?_⟩
      refine mem_importConversation_of_ne _ _ _
        (mem_importConversation_self _ _) ?_
      simp only [inflateConversationFromSync, makeConflictCopyPayload_id]
      exact fun hcontra => hrc hcontra.symm
  · intro hu
    simp [makeConflictCopyPayload, hu]
  · intro hu ha
    simp [makeConflictCopyPayload, hu, ha]
  · intro hu ha
    simp [makeConflictCopyPayload, hu, ha]

/-- C5 witness: concrete conflict on id `a` with a successful remote GET at
revision 7 — revision knowledge accepted, titled copy queued; and a concrete
failed GET recording the error. -/
theorem upsert_conflict_resolver_behavior_witness :
    (handleUpsertConflict "a" (some sampleConv) (.ok sampleRemote) "b" 0 []
        sampleSyncState).sync.remoteRevisionById "a" = some 7 ∧
    (makeConflictCopyPayload sampleConv "b" 0).userTitle
      = some ((sampleConv.userTitle).getD "" ++ " (conflict copy)") ∧
    (handleUpsertConflict "a" (some sampleConv) (.error "net") "b" 0 []
        sampleSyncState).sync.lastErrorById "a"
      = some ("conflict: failed to fetch remote: " ++ "net") := by
  obtain ⟨herr, hok, htitle, _⟩ := upsert_conflict_resolver_behavior "a" "b"
    sampleConv 0 [] sampleSyncState
  exact ⟨(hok sampleRemote (by decide)).2.2.1, htitle.1 (by decide),
    (herr "net").2.2.2.2⟩

/-! ## C6 -/

/-- Inversion of the watcher's `queueUpsert`: an emitted intent names the
conversation's id and that id was not muted. -/
theorem watcherQueueUpsert_some_inv (isMuted : String → Bool) (c : DConv)
    (p : String × ChatSyncOpKind) (h : watcherQueueUpsert isMuted c = some p) :
    p.1 = c.id ∧ isMuted c.id = false := by
  unfold watcherQueueUpsert at h
  split at h
  · cases h
  · split at h
    · cases h
    · rename_i h1 _
      obtain rfl := (Option.some.inj h).symm
      exact ⟨rfl, by simpa using h1⟩

/-- Inversion of the watcher's `queueDelete`: an emitted intent names the given
id and that id was not muted. -/
theorem watcherQueueDelete_some_inv (isMuted : String → Bool) (i : String)
    (p : String × ChatSyncOpKind) (h : watcherQueueDelete isMuted i = some p) :
    p.1 = i ∧ isMuted i = false := by
  unfold watcherQueueDelete at h
  split at h
  · cases h
  · rename_i h1
    obtain rfl := (Option.some.inj h).symm
    exact ⟨rfl, by simpa using h1⟩

/-- C6: while a conversation id is muted, the change watcher never queues an
upsert or a delete intent for that id in response to a local store mutation:
no intent carrying a muted id appears in the diff handler's output. -/
theorem watcher_muted_never_queues (isMuted : String → Bool)
    (prevState nextState : List DConv) (id : String) (kind : ChatSyncOpKind)
    (hmuted : isMuted id = true) :
    (id, kind) ∉ handleStoreChange isMuted prevState nextState := by
  intro hmem
  unfold handleStoreChange at hmem
  rw [List.mem_append] at hmem
  rcases hmem with hmem | hmem <;> rw [List.mem_filterMap] at hmem <;>
    obtain ⟨a, _, hfa⟩ := hmem
  · -- deletions loop
    split at hfa
    · cases hfa
    · split at hfa
      · cases hfa
      · split at hfa
        · cases hfa
        · obtain ⟨h1, h2⟩ := watcherQueueDelete_some_inv _ _ _ hfa
          rw [show ((id, kind) : String × ChatSyncOpKind).1 = id from rfl] at h1
          rw [h1, h2] at hmuted
          cases hmuted
  · -- additions/updates loop
    split at hfa
    · cases hfa
    · rename_i hmut
      split at hfa
      · -- new conversation
        split at hfa
        · obtain ⟨h1, h2⟩ := watcherQueueUpsert_some_inv _ _ _ hfa
          rw [show ((id, kind) : String × ChatSyncOpKind).1 = id from rfl] at h1
          rw [h1, h2] at hmuted
          cases hmuted
        · cases hfa
      · -- changed conversation
        split at hfa
        · cases hfa
        · dsimp only at hfa
          split at hfa
          · obtain ⟨h1, h2⟩ := watcherQueueDelete_some_inv _ _ _ hfa
            rw [show ((id, kind) : String × ChatSyncOpKind).1 = id from rfl]
              at h1
            rw [h1, h2] at hmuted
            cases hmuted
          · split at hfa
            · obtain ⟨h1, h2⟩ := watcherQueueUpsert_some_inv _ _ _ hfa
              rw [show ((id, kind) : String × ChatSyncOpKind).1 = id from rfl]
                at h1
              rw [h1, h2] at hmuted
              cases hmuted
            · cases hfa

/-- C6 witness: with everything muted, a store change adding an eligible
conversation emits no intent for it. -/
theorem watcher_muted_never_queues_witness :
    ("x", ChatSyncOpKind.upsert)
      ∉ handleStoreChange (fun _ => true) [] [sampleDConv] :=
  watcher_muted_never_queues (fun _ => true) [] [sampleDConv] "x" .upsert rfl

/-! ## C10 -/

/-- Inversion of the realtime listener: producing a queued event requires an
object payload with the right `type`, a string `conversationId`, a finite
non-negative numeric `revision` and a boolean `deleted`. -/
theorem handleMessage_some_inv (raw : Option JsValue) (ev : RealtimeEvent)
    (h : handleConversationChangedMessage raw = some ev) :
    ∃ fields, raw = some (.obj fields) ∧
      jsStrictEqStr (getField (.obj fields) "type") "conversation_changed"
        = true ∧
      getField (.obj fields) "conversationId" = .str ev.conversationId ∧
      getField (.obj fields) "revision" = .num (.finite ev.revision) ∧
      0 ≤ ev.revision ∧
      getField (.obj fields) "deleted" = .bool ev.deleted := by
  cases raw with
  | none => simp [handleConversationChangedMessage] at h
  | some d =>
    cases d with
    | obj fields =>
      refine ⟨fields, rfl, ?_⟩
      simp only [handleConversationChangedMessage] at h
      rw [if_neg (by simp [jsTruthy, jsTypeofObject])] at h
      split at h
      · cases h
      · rename_i htype
        split at h
        all_goals try exact Option.noConfusion h
        rename_i cid hcid
        split at h
        all_goals try exact Option.noConfusion h
        rename_i q hrev
        split at h
        · cases h
        · rename_i hneg
          split at h
          all_goals try exact Option.noConfusion h
          rename_i b hdel
          obtain rfl := (Option.some.inj h)
          refine ⟨by simpa using htype, hcid, hrev, ?_, hdel⟩
          exact le_of_not_lt hneg
    | undefined => simp [handleConversationChangedMessage, jsTruthy] at h
    | nullv => simp [handleConversationChangedMessage, jsTruthy] at h
    | bool b =>
      simp [handleConversationChangedMessage, jsTypeofObject] at h
    | num n =>
      simp [handleConversationChangedMessage, jsTypeofObject] at h
    | str s =>
      simp [handleConversationChangedMessage, jsTypeofObject] at h
    | arr elems =>
      simp [handleConversationChangedMessage, jsTruthy, jsTypeofObject,
        getField, jsStrictEqStr] at h

/-- C10: every malformed incoming realtime frame — unparseable JSON, a
non-object payload, a wrong `type`, a non-string `conversationId`, a
non-numeric / non-finite / negative `revision`, or a non-boolean `deleted` —
is dropped by the event listener without queueing anything. -/
theorem realtime_malformed_frame_ignored (raw : Option JsValue)
    (h : realtimeFrameMalformed raw) :
    handleConversationChangedMessage raw = none := by
  rcases hcase : handleConversationChangedMessage raw with _ | ev
  · rfl
  · exfalso
    obtain ⟨fields, hraw, htype, hcid, hrev, hrevnn, hdel⟩ :=
      handleMessage_some_inv raw ev hcase
    subst hraw
    rcases h with hnone | ⟨d, hd, hbad⟩
    · cases hnone
    · obtain rfl := Option.some.inj hd
      rcases hbad with h1 | h2 | h3 | h4 | h5
      · exact h1 fields rfl
      · exact h2 htype
      · exact h3 ev.conversationId hcid
      · exact h4 ev.revision hrevnn hrev
      · exact h5 ev.deleted hdel

/-- C10 witness: a string payload (not an object) is dropped. -/
theorem realtime_malformed_frame_ignored_witness :
    handleConversationChangedMessage (some (.str "x")) = none :=
  realtime_malformed_frame_ignored (some (.str "x"))
    (Or.inr ⟨.str "x", rfl, Or.inl (fun fields => by simp)⟩)

end Sync
